import Mathlib

/-!
# Verification of the branch-locations analysis pipeline

A shallow embedding of the computational core of the repository:

* `scripts/run_analysis.py` — load/clean of the combined branch table, bank
  ranking, region and zone tagging, gap analysis, nearest-competitor analysis,
  competitive intensity, the two grid-based opportunity scores and the
  composite multi-metric comparison;
* `scrapers/abb_branches.py` and `scrapers/kb_branches.py` — the CSV emission
  step `save_to_csv`.

Coordinates are modelled as exact rationals (`ℚ`).  The source computes
Euclidean distances in degree space as `np.sqrt(((a - b)**2).sum())` and then
only ever (i) compares them against nonnegative thresholds, (ii) takes their
minimum, or (iii) multiplies the minimum by a weight inside the opportunity
scores.  Since `Real.sqrt` is monotone (and strictly monotone on nonnegative
arguments), comparisons and minima commute with squaring: `sqrt d < t ↔ d < t²`
for `t ≥ 0`, and `min (sqrt dᵢ) = sqrt (min dᵢ)`.  All threshold tests and
sorts below therefore use the squared distance (kept in `ℚ`, hence
computable), with thresholds written as explicit squares such as `(3/10)^2`;
the two opportunity-score values, whose *result* genuinely contains a square
root, are defined over `ℝ` with `Real.sqrt`.
-/

namespace BranchLocations

/-- The target bank of the analysis, the literal `'AzerTurk Bank'` used
throughout `run_analysis.py`. -/
def targetBank : String := "AzerTurk Bank"

/-- One cleaned row of `data/combined_atms.csv` after coordinate coercion:
a bank name and numeric `lat`/`long` (WGS-84 degrees, modelled as `ℚ`). -/
structure Row where
  bank : String
  lat : ℚ
  long : ℚ
deriving DecidableEq, Repr

/-- The in-memory table `df` of `run_analysis.py`. -/
abbrev Dataset := List Row

/-- One raw row of the combined CSV before cleaning.
`pd.to_numeric(..., errors='coerce')` (lines 44–45) maps entries that fail to
parse as numbers to NaN; a raw coordinate is therefore modelled as
`Option ℚ`, with `none` standing for a missing or non-numeric value. -/
structure RawRow where
  bank : String
  lat : Option ℚ
  long : Option ℚ
deriving DecidableEq, Repr

/-- Lines 44–48 of `run_analysis.py`: coerce `lat`/`long` to numeric and
`dropna` the rows where either coordinate failed to parse. -/
def loadAndClean (raw : List RawRow) : Dataset :=
  raw.filterMap fun r =>
    match r.lat, r.long with
    | some a, some b => some ⟨r.bank, a, b⟩
    | _, _ => none

/-- A raw row has valid numeric coordinates iff both coercions succeed. -/
def validCoords (r : RawRow) : Bool := r.lat.isSome && r.long.isSome

/-- The cleaned row built from a raw row with valid coordinates. -/
def toCleanRow (r : RawRow) : Row :=
  ⟨r.bank, r.lat.getD 0, r.long.getD 0⟩

/-- Coordinate pair of a row, in the `(lat, long)` order used by
`df[['lat', 'long']].values`. -/
def coords (r : Row) : ℚ × ℚ := (r.lat, r.long)

/-- Squared Euclidean distance in degree space.  The source computes
`np.sqrt(((a - b)**2).sum())`; see the header comment for why the squared
form is the faithful computable counterpart. -/
def dist2 (p q : ℚ × ℚ) : ℚ := (p.1 - q.1) ^ 2 + (p.2 - q.2) ^ 2

/-- Squared distance from `q` to its nearest point of `ps`
(`NearestNeighbors(n_neighbors=1)` / `distances.min()` in the source).  The
source library call raises on an empty reference set, so the `.getD 0`
default is never reached in any run the theorems below describe. -/
def minDist2 (ps : List (ℚ × ℚ)) (q : ℚ × ℚ) : ℚ :=
  ((ps.map fun p => dist2 p q).min?).getD 0

/-- Number of rows of bank `b`, one entry of `df['bank_name'].value_counts()`. -/
def bankCount (ds : Dataset) (b : String) : ℕ :=
  (ds.filter fun r => r.bank = b).length

/-- The distinct bank names of the dataset — the index of
`df['bank_name'].value_counts()`. -/
def bankNames (ds : Dataset) : List String :=
  (ds.map Row.bank).dedup

/-- Line 80 of `run_analysis.py`:
`atb_rank = (df['bank_name'].value_counts() > atb_count).sum() + 1`,
i.e. the number of distinct banks whose branch count strictly exceeds `b`'s,
plus one.  (The same formula is reused per zone on line 893.) -/
def bankRank (ds : Dataset) (b : String) : ℕ :=
  ((bankNames ds).filter fun b2 => bankCount ds b < bankCount ds b2).length + 1

/-- Line 473 of `run_analysis.py`: the derived `region` column.
`'Baku'` iff `40.3 ≤ lat ≤ 40.5 and 49.7 ≤ long ≤ 50.0`, else `'Regions'`. -/
def region (r : Row) : String :=
  if 40.3 ≤ r.lat ∧ r.lat ≤ 40.5 ∧ 49.7 ≤ r.long ∧ r.long ≤ 50.0 then "Baku"
  else "Regions"

/-- Lines 815–842 of `run_analysis.py`: the derived `zone` column, an ordered
first-match-wins rule chain. -/
def assign_zone (r : Row) : String :=
  if 40.3 ≤ r.lat ∧ r.lat ≤ 40.5 ∧ 49.7 ≤ r.long ∧ r.long ≤ 50.0 then "Baku City"
  else if 40.2 ≤ r.lat ∧ r.lat ≤ 40.6 ∧ 49.5 ≤ r.long ∧ r.long ≤ 50.3 then "Absheron"
  else if 41.0 < r.lat then "North"
  else if 40.5 < r.lat ∧ r.long < 48.5 then "Northwest"
  else if 40.0 ≤ r.lat ∧ r.lat ≤ 40.8 ∧ 47.0 ≤ r.long ∧ r.long < 49.5 then "Central"
  else if r.lat < 39.0 then "South"
  else if r.long < 46.0 then "West"
  else "Other"

/-- C8: the load-and-clean step retains exactly the raw rows whose `lat` and
`long` both coerce to numeric (in order), and drops all others; consequently
the cleaned row count equals the number of raw rows with valid numeric
coordinates, and every retained row had valid numeric coordinates. -/
theorem loadAndClean_retains_exactly_valid (raw : List RawRow) :
    loadAndClean raw = (raw.filter validCoords).map toCleanRow ∧
    (loadAndClean raw).length = (raw.filter validCoords).length := by
  have h : loadAndClean raw = (raw.filter validCoords).map toCleanRow := by
    induction raw with
    | nil => rfl
    | cons r rest ih =>
      cases hla : r.lat with
      | none =>
        simp [loadAndClean, List.filterMap_cons, validCoords, hla,
          List.filter_cons] at ih ⊢
        exact ih
      | some a =>
        cases hlo : r.long with
        | none =>
          simp [loadAndClean, List.filterMap_cons, validCoords, hla, hlo,
            List.filter_cons] at ih ⊢
          exact ih
        | some b =>
          simp [loadAndClean, List.filterMap_cons, validCoords, hla, hlo,
            List.filter_cons, toCleanRow] at ih ⊢
          exact ih
  exact ⟨h, by rw [h, List.length_map]⟩

/-- Bridge between the list-level rank filter and the set of distinct banks
with strictly greater count. -/
theorem dedup_filter_length_eq_card (l : List String) (p : String → Prop)
    [DecidablePred p] :
    (l.dedup.filter fun b => p b).length = (l.toFinset.filter p).card := by
  classical
  have h1 : (l.dedup.filter fun b => p b).Nodup :=
    (l.nodup_dedup).filter _
  have h2 : (l.dedup.filter fun b => p b).toFinset = l.toFinset.filter p := by
    ext b
    simp [List.mem_filter, List.mem_dedup, Finset.mem_filter, List.mem_toFinset]
  calc (l.dedup.filter fun b => p b).length
      = (l.dedup.filter fun b => p b).toFinset.card :=
        (List.toFinset_card_of_nodup h1).symm
    _ = (l.toFinset.filter p).card := by rw [h2]

/-- C3: the computed rank of any bank `b` equals `1` plus the number of
distinct banks whose branch count strictly exceeds `b`'s; in particular a
bank holding the maximum branch count always receives rank `1`. -/
theorem bankRank_eq_one_add_card_gt (ds : Dataset) (_hne : ds ≠ []) (b : String) :
    bankRank ds b =
      1 + ((ds.map Row.bank).toFinset.filter
            fun b2 => bankCount ds b < bankCount ds b2).card ∧
    ((∀ b2, bankCount ds b2 ≤ bankCount ds b) → bankRank ds b = 1) := by
  constructor
  · rw [bankRank, bankNames,
      dedup_filter_length_eq_card (ds.map Row.bank)
        (fun b2 => bankCount ds b < bankCount ds b2)]
    omega
  · intro hmax
    rw [bankRank]
    have h : (bankNames ds).filter
        (fun b2 => bankCount ds b < bankCount ds b2) = [] := by
      apply List.filter_eq_nil_iff.mpr
      intro b2 _
      simpa using not_lt.mpr (hmax b2)
    rw [h]
    rfl

/-- A small three-row, two-bank dataset used by concrete witnesses. -/
def wds3 : Dataset :=
  [⟨"A", 40, 49⟩, ⟨"A", 41, 49⟩, ⟨"AzerTurk Bank", 40, 50⟩]

/-- C3 witness: a concrete three-row dataset; the rank formula and the
maximum-count clause are instantiated for bank `"A"`. -/
theorem bankRank_eq_one_add_card_gt_witness :
    wds3 ≠ [] ∧
    (bankRank wds3 "A" =
      1 + ((wds3.map Row.bank).toFinset.filter
            (fun b2 => bankCount wds3 "A" < bankCount wds3 b2)).card ∧
      ((∀ b2, bankCount wds3 b2 ≤ bankCount wds3 "A") → bankRank wds3 "A" = 1)) :=
  ⟨by decide, bankRank_eq_one_add_card_gt wds3 (by decide) "A"⟩

/-- C10: a row's `region` is `'Baku'` iff its `zone` is `'Baku City'` — both
labels are decided by the same bounding box, and the zone rule for
`'Baku City'` is the first rule of the chain, so nothing shadows it. -/
theorem region_baku_iff_zone_baku_city (r : Row) :
    region r = "Baku" ↔ assign_zone r = "Baku City" := by
  by_cases h : 40.3 ≤ r.lat ∧ r.lat ≤ 40.5 ∧ 49.7 ≤ r.long ∧ r.long ≤ 50.0
  · simp [region, assign_zone, h]
  · simp only [region, assign_zone, if_neg h]
    constructor
    · intro hc
      exact absurd hc (by decide)
    · intro hc
      split at hc <;> first
        | exact absurd hc (by decide)
        | (split at hc <;> first
            | exact absurd hc (by decide)
            | (split at hc <;> first
                | exact absurd hc (by decide)
                | (split at hc <;> first
                    | exact absurd hc (by decide)
                    | (split at hc <;> first
                        | exact absurd hc (by decide)
                        | (split at hc <;> exact absurd hc (by decide))))))

/-- Rows of the target bank (`df[df['bank_name'] == 'AzerTurk Bank']`). -/
def atbRows (ds : Dataset) : Dataset :=
  ds.filter fun r => r.bank = targetBank

/-- Rows of the competitors (`df[df['bank_name'] != 'AzerTurk Bank']`). -/
def compRows (ds : Dataset) : Dataset :=
  ds.filter fun r => ¬ r.bank = targetBank

/-- `atb_coords` of line 559. -/
def atbCoords (ds : Dataset) : List (ℚ × ℚ) :=
  (atbRows ds).map coords

/-- `comp_coords` of line 560. -/
def compCoords (ds : Dataset) : List (ℚ × ℚ) :=
  (compRows ds).map coords

/-- Lines 563–573 of `run_analysis.py` (`gap_df`): every competitor row paired
with its (squared) distance to the nearest target-bank row, as produced by
`NearestNeighbors(n_neighbors=1).fit(atb_coords).kneighbors(comp_coords)`. -/
def gapPairs (ds : Dataset) : List (Row × ℚ) :=
  (compRows ds).map fun c => (c, minDist2 (atbCoords ds) (coords c))

/-- Line 576 of `run_analysis.py`:
`gaps = gap_df[gap_df['distance_to_bob'] > 0.3].sort_values(..., ascending=False)`.
The threshold `sqrt d > 0.3` becomes `d > (3/10)^2` on squared distances, and
sorting descending by distance is sorting descending by squared distance. -/
def gaps (ds : Dataset) : List (Row × ℚ) :=
  ((gapPairs ds).filter fun x => (3/10 : ℚ) ^ 2 < x.2).mergeSort
    fun a b => decide (b.2 ≤ a.2)

/-- The `distance_to_bob` column of the gap analysis. -/
def gapDistances (ds : Dataset) : List ℚ :=
  (gapPairs ds).map Prod.snd

/-- Lines 654–658 of `run_analysis.py` (`dist_to_competitor`): for every
target-bank row, the (squared) distance to its nearest competitor row. -/
def nearestCompetitorDistances (ds : Dataset) : List ℚ :=
  (atbRows ds).map fun t => minDist2 (compCoords ds) (coords t)

/-- Squared distance is symmetric. -/
theorem dist2_comm (p q : ℚ × ℚ) : dist2 p q = dist2 q p := by
  unfold dist2; ring

/-- Nearest distance to a single reference point is the distance to it. -/
theorem minDist2_singleton (p q : ℚ × ℚ) : minDist2 [p] q = dist2 p q := rfl

/-- C5: the gap list consists exactly of the competitor rows whose distance to
the nearest target-bank row exceeds 0.3° (`sqrt d > 0.3 ↔ d > (3/10)²`), every
recorded gap distance is that nearest-target distance, and the list is ordered
descending by distance.  The hypothesis keeps to datasets on which the
source's `NearestNeighbors.fit` call does not raise. -/
theorem gaps_characterization (ds : Dataset) (_hatb : atbRows ds ≠ []) :
    (∀ c : Row, (∃ d, (c, d) ∈ gaps ds) ↔
      (c ∈ ds ∧ ¬ c.bank = targetBank ∧
        (3/10 : ℚ) ^ 2 < minDist2 (atbCoords ds) (coords c))) ∧
    (∀ cd ∈ gaps ds, cd.2 = minDist2 (atbCoords ds) (coords cd.1)) ∧
    (gaps ds).Pairwise fun a b => b.2 ≤ a.2 := by
  have hperm :
      (gaps ds).Perm ((gapPairs ds).filter fun x => (3/10 : ℚ) ^ 2 < x.2) :=
    List.mergeSort_perm _ _
  have hmem : ∀ cd : Row × ℚ, cd ∈ gaps ds ↔
      (cd ∈ gapPairs ds ∧ (3/10 : ℚ) ^ 2 < cd.2) := by
    intro cd
    rw [hperm.mem_iff, List.mem_filter]
    simp
  have hpairs : ∀ cd : Row × ℚ, cd ∈ gapPairs ds ↔
      (cd.1 ∈ ds ∧ ¬ cd.1.bank = targetBank ∧
        cd.2 = minDist2 (atbCoords ds) (coords cd.1)) := by
    intro cd
    constructor
    · intro h
      rcases List.mem_map.mp h with ⟨c, hc, heq⟩
      rcases List.mem_filter.mp hc with ⟨hcds, hcb⟩
      simp only [decide_eq_true_eq] at hcb
      subst heq
      exact ⟨hcds, hcb, rfl⟩
    · intro ⟨h1, h2, h3⟩
      apply List.mem_map.mpr
      refine ⟨cd.1, List.mem_filter.mpr ⟨h1, by simpa using h2⟩, ?_⟩
      cases cd
      simp only at h3
      simp [h3]
  refine ⟨?_, ?_, ?_⟩
  · intro c
    constructor
    · intro ⟨d, hd⟩
      rcases (hmem (c, d)).mp hd with ⟨hp, hgt⟩
      rcases (hpairs (c, d)).mp hp with ⟨h1, h2, h3⟩
      exact ⟨h1, h2, by rw [← h3]; exact hgt⟩
    · intro ⟨h1, h2, h3⟩
      refine ⟨minDist2 (atbCoords ds) (coords c), ?_⟩
      exact (hmem _).mpr ⟨(hpairs _).mpr ⟨h1, h2, rfl⟩, h3⟩
  · intro cd hcd
    exact ((hpairs cd).mp ((hmem cd).mp hcd).1).2.2
  · have h := @List.sorted_mergeSort (Row × ℚ)
      (fun a b => decide (b.2 ≤ a.2))
      (fun a b c hab hbc => by
        simp only [decide_eq_true_eq] at hab hbc ⊢
        exact le_trans hbc hab)
      (fun a b => by
        simp only [decide_eq_true_eq, Bool.or_eq_true]
        exact le_total b.2 a.2)
      ((gapPairs ds).filter fun x => (3/10 : ℚ) ^ 2 < x.2)
    simpa only [decide_eq_true_eq] using h

/-- A two-row dataset (one target row, one competitor row) for witnesses. -/
def wds2 : Dataset :=
  [⟨"AzerTurk Bank", 40, 49⟩, ⟨"Kapital Bank", 41, 50⟩]

/-- C5 witness: the gap characterization instantiated on a concrete two-row
dataset whose single competitor row is 0.3°-far from the target row. -/
theorem gaps_characterization_witness :
    (∀ c : Row, (∃ d, (c, d) ∈ gaps wds2) ↔
      (c ∈ wds2 ∧ ¬ c.bank = targetBank ∧
        (3/10 : ℚ) ^ 2 < minDist2 (atbCoords wds2) (coords c))) ∧
    (∀ cd ∈ gaps wds2, cd.2 = minDist2 (atbCoords wds2) (coords cd.1)) ∧
    (gaps wds2).Pairwise (fun a b => b.2 ≤ a.2) :=
  gaps_characterization wds2 (by decide)

/-- C6: on a dataset with exactly one target-bank row and exactly one
competitor row, the gap-analysis distance (competitor → nearest target row)
and the nearest-competitor distance (target row → nearest competitor row)
are numerically equal — both are the mutual distance of the two rows.
(Equality of the squared distances is equality of the distances, as
`Real.sqrt` is injective on nonnegatives.) -/
theorem gap_dist_eq_nearest_competitor_dist (ds : Dataset) (t c : Row)
    (h1 : atbRows ds = [t]) (h2 : compRows ds = [c]) :
    gapDistances ds = nearestCompetitorDistances ds ∧
    gapDistances ds = [dist2 (coords t) (coords c)] := by
  have hg : gapDistances ds = [dist2 (coords t) (coords c)] := by
    rw [gapDistances, gapPairs, atbCoords, h1, h2]
    simp [minDist2_singleton]
  have hn : nearestCompetitorDistances ds = [dist2 (coords t) (coords c)] := by
    rw [nearestCompetitorDistances, compCoords, h1, h2]
    simp [minDist2_singleton, dist2_comm]
  exact ⟨hg.trans hn.symm, hg⟩

/-- C6 witness: the symmetry instantiated on the concrete two-row dataset. -/
theorem gap_dist_eq_nearest_competitor_dist_witness :
    gapDistances wds2 = nearestCompetitorDistances wds2 ∧
    gapDistances wds2 =
      [dist2 (coords ⟨"AzerTurk Bank", 40, 49⟩) (coords ⟨"Kapital Bank", 41, 50⟩)] :=
  gap_dist_eq_nearest_competitor_dist wds2 _ _ (by decide) (by decide)

/-- Lines 721–733 of `run_analysis.py`, `calculate_competitive_intensity`:
for each row of bank `b` (in order), the number of rows of the full table
whose distance to it satisfies `(distances > 0) & (distances < 0.1)` — on
squared distances, `0 < d ∧ d < (1/10)^2`. -/
def calculate_competitive_intensity (ds : Dataset) (b : String) : List ℕ :=
  ((ds.filter fun r => r.bank = b).map coords).map fun c =>
    (ds.map coords).countP fun c2 =>
      decide (0 < dist2 c2 c ∧ dist2 c2 c < (1/10 : ℚ) ^ 2)

/-- Modelled from the claim's words for comparison only: for each row `r` of
bank `b`, the number of *other* rows ("all other rows (of any bank)") within
the 0.1° radius, "other" meaning one occurrence of `r` removed. -/
def claimIntensity (ds : Dataset) (b : String) : List ℕ :=
  (ds.filter fun r => r.bank = b).map fun r =>
    ((ds.erase r).map coords).countP fun c2 =>
      decide (dist2 c2 (coords r) < (1/10 : ℚ) ^ 2)

/-- Two co-located rows of different banks: the counterexample dataset. -/
def wdsDup : Dataset := [⟨"A", 40, 49⟩, ⟨"B", 40, 49⟩]

/-- A point at distance 0 to its own self. -/
theorem dist2_self (p : ℚ × ℚ) : dist2 p p = 0 := by
  unfold dist2; ring

/-- C4 counterexample: with two co-located rows of different banks, the code
computes intensity 0 for the `"A"` row (the `distances > 0` conjunct drops
the co-located `"B"` row), while the count of all *other* rows within the
radius is 1 — so the computed value is not "the count of all other rows
within radius 0.1°". -/
theorem intensity_counterexample :
    calculate_competitive_intensity wdsDup "A" = [0] ∧
    claimIntensity wdsDup "A" = [1] ∧
    calculate_competitive_intensity wdsDup "A" ≠ claimIntensity wdsDup "A" := by
  refine ⟨?_, ?_, ?_⟩ <;>
    simp [calculate_competitive_intensity, claimIntensity, wdsDup, coords,
      dist2, List.countP_cons, List.erase]

/-- C4 amended: each competitive-intensity value for a row `r` equals the
count of rows at distance strictly greater than 0 and strictly less than
0.1° from `r`, which is the same count taken after removing one occurrence
of `r` — the row itself is never counted (self-exclusion at distance 0),
and neither is any other row at identical coordinates. -/
theorem intensity_amended (ds : Dataset) (b : String) :
    calculate_competitive_intensity ds b =
      (ds.filter fun r => r.bank = b).map fun r =>
        ((ds.erase r).map coords).countP fun c2 =>
          decide (0 < dist2 c2 (coords r) ∧ dist2 c2 (coords r) < (1/10 : ℚ) ^ 2) := by
  rw [calculate_competitive_intensity, List.map_map]
  apply List.map_congr_left
  intro r hr
  have hrds : r ∈ ds := (List.mem_filter.mp hr).1
  have hperm : (ds.map coords).Perm (coords r :: (ds.erase r).map coords) :=
    (List.perm_cons_erase hrds).map coords
  rw [Function.comp_apply, hperm.countP_eq, List.countP_cons]
  simp [dist2_self]

/-- Comparison is antisymmetric on `ℚ` (hypothesis of the `max?`/`min?`
characterization lemmas). -/
instance : Std.Antisymm (fun x1 x2 : ℚ => x1 ≤ x2) :=
  ⟨@fun _ _ h1 h2 => le_antisymm h1 h2⟩

/-- `pandas`' `.max()` over a nonempty numeric column. -/
def listMax (xs : List ℚ) : ℚ := xs.max?.getD 0

/-- `pandas`' `.min()` over a nonempty numeric column. -/
def listMin (xs : List ℚ) : ℚ := xs.min?.getD 0

/-- Every member is at most the column maximum. -/
theorem le_listMax (xs : List ℚ) (x : ℚ) (hx : x ∈ xs) : x ≤ listMax xs := by
  rcases hm : xs.max? with _ | m
  · rw [List.max?_eq_none_iff] at hm
    rw [hm] at hx
    cases hx
  · have hprop := (List.max?_eq_some_iff le_refl (fun a b => max_choice a b)
      (fun a b c => max_le_iff)).mp hm
    have : listMax xs = m := by simp [listMax, hm]
    rw [this]
    exact hprop.2 x hx

/-- On a nonempty column the minimum is at most the maximum. -/
theorem listMin_le_listMax (xs : List ℚ) (hxs : xs ≠ []) :
    listMin xs ≤ listMax xs := by
  rcases hn : xs.min? with _ | n
  · rw [List.min?_eq_none_iff] at hn
    exact absurd hn hxs
  · have hprop := (List.min?_eq_some_iff le_refl (fun a b => min_choice a b)
      (fun a b c => le_min_iff)).mp hn
    have hmin : listMin xs = n := by simp [listMin, hn]
    rw [hmin]
    exact le_listMax xs n hprop.1

/-- The per-bank record of lines 1341–1361 of `run_analysis.py`
(`metrics.append({...})`), with the source's column names. -/
structure BankMetrics where
  Branch_Count : ℚ
  Geographic_Spread : ℚ
  Baku_Percentage : ℚ
  Avg_Competitive_Intensity : ℚ
deriving DecidableEq, Repr

/-- Lines 1341–1361 of `run_analysis.py`: branch count, geographic spread
(lat range + long range), `baku_pct = (bank_data['region'] == 'Baku').sum()
/ len(bank_data) * 100`, and mean competitive intensity
(`np.mean(intensity_data[bank])`). -/
def bankMetrics (ds : Dataset) (b : String) : BankMetrics :=
  let bd := ds.filter fun r => r.bank = b
  { Branch_Count := (bd.length : ℚ)
    Geographic_Spread :=
      (listMax (bd.map Row.lat) - listMin (bd.map Row.lat)) +
        (listMax (bd.map Row.long) - listMin (bd.map Row.long))
    Baku_Percentage :=
      ((bd.filter fun r => region r = "Baku").length : ℚ) / (bd.length : ℚ) * 100
    Avg_Competitive_Intensity :=
      ((calculate_competitive_intensity ds b).sum : ℚ) /
        ((calculate_competitive_intensity ds b).length : ℚ) }

/-- Lines 1333–1337 of `run_analysis.py`: the shortlist — the top 5 banks by
branch count, with the target bank forced in (replacing the fifth) when
absent.  `value_counts()` orders by count descending; its tie order is not
specified by the source, modelled here as a stable descending sort. -/
def comparison_banks (ds : Dataset) : List String :=
  let top5 := ((bankNames ds).mergeSort fun a b =>
    decide (bankCount ds b ≤ bankCount ds a)).take 5
  if targetBank ∈ top5 then top5 else top5.take 4 ++ [targetBank]

/-- Lines 1366–1370 of `run_analysis.py`: one normalization pass
(`if max_val > 0: col = col / max_val * 100`). -/
def normalizeMetric (xs : List ℚ) : List ℚ :=
  if 0 < listMax xs then xs.map fun x => x / listMax xs * 100 else xs

/-- The four metric columns of the comparison table, over a shortlist. -/
def metricColumns (ds : Dataset) (bs : List String) : List (List ℚ) :=
  [bs.map fun b => (bankMetrics ds b).Branch_Count,
   bs.map fun b => (bankMetrics ds b).Geographic_Spread,
   bs.map fun b => (bankMetrics ds b).Baku_Percentage,
   bs.map fun b => (bankMetrics ds b).Avg_Competitive_Intensity]

/-- Modelled from the claim's words for comparison only: the percentage of a
bank's rows lying in the non-Baku region (`region = 'Regions'`). -/
def pctNonBaku (ds : Dataset) (b : String) : ℚ :=
  ((((ds.filter fun r => r.bank = b).filter fun r => region r = "Regions").length : ℚ)) /
    (((ds.filter fun r => r.bank = b).length : ℚ)) * 100

/-- A one-row dataset whose single (target-bank) row lies outside Baku. -/
def wdsReg : Dataset := [⟨"AzerTurk Bank", 41, 49⟩]

/-- C2 counterexample: on a dataset whose only bank is the target bank with
its one row outside the Baku box, the target bank is in the shortlist, yet
the regional-coverage metric of the comparison (`Baku_Percentage`) is 0
while the percentage of rows in the non-Baku region is 100: the metric is
the share of rows *inside* Baku, not outside it. -/
theorem metrics_counterexample :
    comparison_banks wdsReg = [targetBank] ∧
    (bankMetrics wdsReg targetBank).Baku_Percentage = 0 ∧
    pctNonBaku wdsReg targetBank = 100 := by
  refine ⟨?_, ?_, ?_⟩
  · have h : bankNames wdsReg = [targetBank] := by decide
    simp only [comparison_banks, h, List.mergeSort_singleton]
    decide
  · norm_num [bankMetrics, wdsReg, region, targetBank]
    decide
  · norm_num [pctNonBaku, wdsReg, region, targetBank]

/-- All four metrics of a bank with at least one row are nonnegative. -/
theorem bankMetrics_nonneg (ds : Dataset) (b : String)
    (hbd : ds.filter (fun r => r.bank = b) ≠ []) :
    0 ≤ (bankMetrics ds b).Branch_Count ∧
    0 ≤ (bankMetrics ds b).Geographic_Spread ∧
    0 ≤ (bankMetrics ds b).Baku_Percentage ∧
    0 ≤ (bankMetrics ds b).Avg_Competitive_Intensity := by
  refine ⟨?_, ?_, ?_, ?_⟩
  · simp [bankMetrics]
  · have h1 : (ds.filter fun r => r.bank = b).map Row.lat ≠ [] := by
      simpa using hbd
    have h2 : (ds.filter fun r => r.bank = b).map Row.long ≠ [] := by
      simpa using hbd
    have := listMin_le_listMax _ h1
    have := listMin_le_listMax _ h2
    simp only [bankMetrics]
    linarith
  · simp only [bankMetrics]
    positivity
  · simp only [bankMetrics]
    positivity

/-- Entries of a normalized nonnegative column lie in `[0, 100]`, and when
the column maximum is positive the pass divides by that maximum (scaling it
to 100). -/
theorem normalizeMetric_bounds (xs : List ℚ) (hnn : ∀ x ∈ xs, 0 ≤ x) :
    (0 < listMax xs →
      normalizeMetric xs = xs.map fun x => x / listMax xs * 100) ∧
    ∀ y ∈ normalizeMetric xs, 0 ≤ y ∧ y ≤ 100 := by
  constructor
  · intro h
    simp [normalizeMetric, h]
  · intro y hy
    by_cases h : 0 < listMax xs
    · rw [normalizeMetric, if_pos h] at hy
      rcases List.mem_map.mp hy with ⟨x, hx, rfl⟩
      have hx0 := hnn x hx
      have hxm := le_listMax xs x hx
      constructor
      · positivity
      · have hdiv : x / listMax xs ≤ 1 := (div_le_one h).mpr hxm
        nlinarith
    · rw [normalizeMetric, if_neg h] at hy
      have h0 := hnn y hy
      have hm := le_listMax xs y hy
      exact ⟨h0, by linarith [not_lt.mp h]⟩

/-- C2 amended: for every bank of a shortlist (each with at least one row),
the comparison's regional-coverage metric `Baku_Percentage` equals the
percentage of the bank's rows lying in the *Baku* region, and each of the
four metric columns is normalized by dividing by the shortlist's column
maximum (scaled to 100), every normalized entry lying in `[0, 100]`. -/
theorem metrics_amended (ds : Dataset) (bs : List String)
    (hbs : ∀ b ∈ bs, ds.filter (fun r => r.bank = b) ≠ []) :
    (∀ b ∈ bs, (bankMetrics ds b).Baku_Percentage =
      ((ds.filter fun r => r.bank = b ∧ region r = "Baku").length : ℚ) /
        ((ds.filter fun r => r.bank = b).length : ℚ) * 100) ∧
    ∀ col ∈ metricColumns ds bs,
      (0 < listMax col →
        normalizeMetric col = col.map fun x => x / listMax col * 100) ∧
      ∀ y ∈ normalizeMetric col, 0 ≤ y ∧ y ≤ 100 := by
  constructor
  · intro b _
    have hff : (ds.filter fun r => r.bank = b).filter (fun r => region r = "Baku") =
        ds.filter fun r => r.bank = b ∧ region r = "Baku" := by
      rw [List.filter_filter]
      apply List.filter_congr
      intro x _
      by_cases h1 : x.bank = b <;> by_cases h2 : region x = "Baku" <;>
        simp [h1, h2]
    simp only [bankMetrics, ← hff]
  · intro col hcol
    have hnn : ∀ x ∈ col, 0 ≤ x := by
      intro x hx
      simp only [metricColumns, List.mem_cons, List.not_mem_nil, or_false] at hcol
      rcases hcol with rfl | rfl | rfl | rfl <;>
        · rcases List.mem_map.mp hx with ⟨b, hb, rfl⟩
          have h4 := bankMetrics_nonneg ds b (hbs b hb)
          tauto
    exact normalizeMetric_bounds col hnn

/-- C2 witness: the amended statement instantiated on the three-row dataset
with shortlist `["A", "AzerTurk Bank"]`. -/
theorem metrics_amended_witness :
    (∀ b ∈ ["A", targetBank], (bankMetrics wds3 b).Baku_Percentage =
      ((wds3.filter fun r => r.bank = b ∧ region r = "Baku").length : ℚ) /
        ((wds3.filter fun r => r.bank = b).length : ℚ) * 100) ∧
    ∀ col ∈ metricColumns wds3 ["A", targetBank],
      (0 < listMax col →
        normalizeMetric col = col.map fun x => x / listMax col * 100) ∧
      ∀ y ∈ normalizeMetric col, 0 ≤ y ∧ y ≤ 100 :=
  metrics_amended wds3 ["A", targetBank] (by decide)

/-- Line 964 of `run_analysis.py`: `baku_lat_min`. -/
def baku_lat_min : ℚ := 40.30

/-- Line 964 of `run_analysis.py`: `baku_lat_max`. -/
def baku_lat_max : ℚ := 40.65

/-- Line 965 of `run_analysis.py`: `baku_long_min`. -/
def baku_long_min : ℚ := 49.60

/-- Line 965 of `run_analysis.py`: `baku_long_max`. -/
def baku_long_max : ℚ := 50.20

/-- The urban Baku-Absheron bounding box used on lines 984, 1179 and 1199. -/
def inBakuAbsheron (p : ℚ × ℚ) : Prop :=
  baku_lat_min ≤ p.1 ∧ p.1 ≤ baku_lat_max ∧ baku_long_min ≤ p.2 ∧ p.2 ≤ baku_long_max

instance (p : ℚ × ℚ) : Decidable (inBakuAbsheron p) := by
  unfold inBakuAbsheron; infer_instance

/-- Lines 984–985: the rows inside the Baku-Absheron box. -/
def df_baku (ds : Dataset) : Dataset :=
  ds.filter fun r => inBakuAbsheron (coords r)

/-- Line 986: target-bank rows of the Baku-Absheron subset. -/
def atb_baku (ds : Dataset) : Dataset :=
  (df_baku ds).filter fun r => r.bank = targetBank

/-- Line 987: competitor rows of the Baku-Absheron subset. -/
def comp_baku (ds : Dataset) : Dataset :=
  (df_baku ds).filter fun r => ¬ r.bank = targetBank

/-- Line 989 of `run_analysis.py`:
`atb_coords_baku = atb_baku[['lat','long']].values if len(atb_baku) > 0
else np.array([[40.4, 49.85]])` — the placeholder substitution. -/
def atb_coords_baku (ds : Dataset) : List (ℚ × ℚ) :=
  if 0 < (atb_baku ds).length then (atb_baku ds).map coords else [(40.4, 49.85)]

/-- Line 990: competitor coordinates of the Baku-Absheron subset. -/
def comp_coords_baku (ds : Dataset) : List (ℚ × ℚ) :=
  (comp_baku ds).map coords

/-- Distance to the nearest reference point: the source takes
`np.sqrt(((ps - q)**2).sum(axis=1)).min()`; since `Real.sqrt` is monotone,
the minimum of the square roots is the square root of the minimum. -/
noncomputable def distNearest (ps : List (ℚ × ℚ)) (q : ℚ × ℚ) : ℝ :=
  Real.sqrt ((minDist2 ps q : ℚ) : ℝ)

/-- Lines 999–1010 of `run_analysis.py`, `calculate_opportunity_score_baku`:
distance to the nearest (possibly placeholder) target coordinate times 15,
plus 0.8 per competitor within radius 0.05° (`d < 0.05 ↔ d² < (1/20)²`). -/
noncomputable def calculate_opportunity_score_baku (ds : Dataset) (point : ℚ × ℚ) : ℝ :=
  distNearest (atb_coords_baku ds) point * 15 +
    ((comp_coords_baku ds).countP fun c =>
      decide (dist2 c point < (1/20 : ℚ) ^ 2) : ℕ) * 0.8

/-- Lines 1179–1180: the rows outside the Baku-Absheron box. -/
def df_regions (ds : Dataset) : Dataset :=
  ds.filter fun r => ¬ inBakuAbsheron (coords r)

/-- Line 1181: target-bank rows outside the box. -/
def atb_regions (ds : Dataset) : Dataset :=
  (df_regions ds).filter fun r => r.bank = targetBank

/-- Line 1182: competitor rows outside the box. -/
def comp_regions (ds : Dataset) : Dataset :=
  (df_regions ds).filter fun r => ¬ r.bank = targetBank

/-- Line 1184 of `run_analysis.py`:
`atb_coords_regions = atb_regions[['lat','long']].values if
len(atb_regions) > 0 else np.array([[40.0, 48.0]])` — the placeholder. -/
def atb_coords_regions (ds : Dataset) : List (ℚ × ℚ) :=
  if 0 < (atb_regions ds).length then (atb_regions ds).map coords else [(40.0, 48.0)]

/-- Line 1185: competitor coordinates outside the box. -/
def comp_coords_regions (ds : Dataset) : List (ℚ × ℚ) :=
  (comp_regions ds).map coords

/-- `np.linspace(lo, hi, n)`: `n` evenly spaced points from `lo` to `hi`. -/
def linspace (lo hi : ℚ) (n : ℕ) : List ℚ :=
  (List.range n).map fun i => lo + (hi - lo) * i / ((n : ℚ) - 1)

/-- Lines 1188–1194 of `run_analysis.py`: the 30×30 regional grid over the
regional data's bounding box padded by 0.1°, row-major in `(lat, long)`. -/
def grid_points_regions (ds : Dataset) : List (ℚ × ℚ) :=
  (linspace (listMin ((df_regions ds).map Row.lat) - 0.1)
      (listMax ((df_regions ds).map Row.lat) + 0.1) 30).flatMap fun la =>
    (linspace (listMin ((df_regions ds).map Row.long) - 0.1)
        (listMax ((df_regions ds).map Row.long) + 0.1) 30).map fun lo => (la, lo)

/-- Lines 1197–1215 of `run_analysis.py`,
`calculate_opportunity_score_regions`: points inside the Baku-Absheron box
return 0 before anything else is computed; otherwise distance to the nearest
coordinate of `atb_coords_regions` times 10 (or the constant 2.0 on an empty
coordinate set — dead code, since the placeholder of line 1184 guarantees at
least one coordinate) plus 0.5 per competitor within radius 0.3°
(`d < 0.3 ↔ d² < (3/10)²`). -/
noncomputable def calculate_opportunity_score_regions (ds : Dataset) (point : ℚ × ℚ) : ℝ :=
  if inBakuAbsheron point then 0
  else
    (if 0 < (atb_coords_regions ds).length
      then distNearest (atb_coords_regions ds) point else 2.0) * 10 +
    ((comp_coords_regions ds).countP fun c =>
      decide (dist2 c point < (3/10 : ℚ) ^ 2) : ℕ) * 0.5

/-- C7: provided the target bank has at least one row outside the urban box,
every regional grid point inside the urban Baku-Absheron bounding box scores
exactly 0, and every grid point outside it scores 10 times the distance to
the nearest target-bank row (of the regional subset) plus 0.5 times the
number of competitor rows within radius 0.3°. -/
theorem opportunity_score_regions_grid (ds : Dataset)
    (hatb : atb_regions ds ≠ []) :
    ∀ p ∈ grid_points_regions ds,
      (inBakuAbsheron p → calculate_opportunity_score_regions ds p = 0) ∧
      (¬ inBakuAbsheron p → calculate_opportunity_score_regions ds p =
        distNearest ((atb_regions ds).map coords) p * 10 +
          ((comp_coords_regions ds).countP fun c =>
            decide (dist2 c p < (3/10 : ℚ) ^ 2) : ℕ) * 0.5) := by
  intro p _
  constructor
  · intro h
    simp [calculate_opportunity_score_regions, h]
  · intro h
    have hlen : 0 < (atb_regions ds).length := List.length_pos.mpr hatb
    have hcoords : atb_coords_regions ds = (atb_regions ds).map coords := by
      rw [atb_coords_regions, if_pos hlen]
    have hclen : 0 < (atb_coords_regions ds).length := by
      rw [hcoords, List.length_map]
      exact hlen
    rw [calculate_opportunity_score_regions, if_neg h, if_pos hclen, hcoords]

/-- C7 witness: instantiated on the two-row dataset (both rows outside the
urban box, so the target bank has a regional row) at two concrete grid
points of its 30×30 regional grid — grid point `(i, j) = (10, 17)`, which
falls inside the urban box and scores 0, and grid point `(0, 0)`, which
falls outside it and scores by the formula. -/
theorem opportunity_score_regions_grid_witness :
    calculate_opportunity_score_regions wds2 (11691/290, 2877/58) = 0 ∧
    calculate_opportunity_score_regions wds2 (39.9, 48.9) =
      distNearest ((atb_regions wds2).map coords) (39.9, 48.9) * 10 +
        ((comp_coords_regions wds2).countP fun c =>
          decide (dist2 c (39.9, 48.9) < (3/10 : ℚ) ^ 2) : ℕ) * 0.5 := by
  have hb1 : ¬ inBakuAbsheron ((40 : ℚ), (49 : ℚ)) := by
    norm_num [inBakuAbsheron, baku_lat_min, baku_lat_max, baku_long_min,
      baku_long_max]
  have hb2 : ¬ inBakuAbsheron ((41 : ℚ), (50 : ℚ)) := by
    norm_num [inBakuAbsheron, baku_lat_min, baku_lat_max, baku_long_min,
      baku_long_max]
  have hatb : atb_regions wds2 = [⟨"AzerTurk Bank", 40, 49⟩] := by
    simp [atb_regions, df_regions, wds2, hb1, hb2, targetBank, coords]
  have hlat : (df_regions wds2).map Row.lat = [40, 41] := by
    simp [df_regions, wds2, hb1, hb2, coords]
  have hlong : (df_regions wds2).map Row.long = [49, 50] := by
    simp [df_regions, wds2, hb1, hb2, coords]
  have hgrid : grid_points_regions wds2 =
      (linspace 39.9 41.1 30).flatMap fun la =>
        (linspace 48.9 50.1 30).map fun lo => (la, lo) := by
    rw [grid_points_regions, hlat, hlong]
    norm_num [listMin, listMax, List.min?, List.max?, min_def, max_def]
  have hla10 : (11691/290 : ℚ) ∈ linspace 39.9 41.1 30 := by
    rw [linspace]
    refine List.mem_map.mpr ⟨10, ?_, ?_⟩
    · decide
    · norm_num
  have hlo17 : (2877/58 : ℚ) ∈ linspace 48.9 50.1 30 := by
    rw [linspace]
    refine List.mem_map.mpr ⟨17, ?_, ?_⟩
    · decide
    · norm_num
  have hla0 : (39.9 : ℚ) ∈ linspace 39.9 41.1 30 := by
    rw [linspace]
    refine List.mem_map.mpr ⟨0, ?_, ?_⟩
    · decide
    · norm_num
  have hlo0 : (48.9 : ℚ) ∈ linspace 48.9 50.1 30 := by
    rw [linspace]
    refine List.mem_map.mpr ⟨0, ?_, ?_⟩
    · decide
    · norm_num
  have hmemIn : ((11691/290 : ℚ), (2877/58 : ℚ)) ∈ grid_points_regions wds2 := by
    rw [hgrid]
    exact List.mem_flatMap.mpr
      ⟨11691/290, hla10, List.mem_map.mpr ⟨2877/58, hlo17, rfl⟩⟩
  have hmemOut : ((39.9 : ℚ), (48.9 : ℚ)) ∈ grid_points_regions wds2 := by
    rw [hgrid]
    exact List.mem_flatMap.mpr
      ⟨39.9, hla0, List.mem_map.mpr ⟨48.9, hlo0, rfl⟩⟩
  have hboxIn : inBakuAbsheron ((11691/290 : ℚ), (2877/58 : ℚ)) := by
    norm_num [inBakuAbsheron, baku_lat_min, baku_lat_max, baku_long_min,
      baku_long_max]
  have hboxOut : ¬ inBakuAbsheron ((39.9 : ℚ), (48.9 : ℚ)) := by
    norm_num [inBakuAbsheron, baku_lat_min, baku_lat_max, baku_long_min,
      baku_long_max]
  have hne : atb_regions wds2 ≠ [] := by
    rw [hatb]; exact List.cons_ne_nil _ _
  exact ⟨(opportunity_score_regions_grid wds2 hne _ hmemIn).1 hboxIn,
    (opportunity_score_regions_grid wds2 hne _ hmemOut).2 hboxOut⟩

/-- A one-row dataset with no target-bank row at all: the Kapital Bank row
sits inside the urban box. -/
def wdsNoTarget : Dataset := [⟨"Kapital Bank", 40.4, 49.85⟩]

/-- C1: on a cleaned dataset with zero target-bank rows, the source does not
raise any error: line 989 substitutes the placeholder coordinate
`(40.4, 49.85)` for the urban grid, line 1184 substitutes `(40.0, 48.0)` for
the regional grid, and the urban opportunity score still evaluates to a
numeric result — at the placeholder point itself, `0 * 15 + 1 * 0.8 = 0.8`
(no `InsufficientDataError` exists anywhere in the code). -/
theorem opportunity_placeholder_on_zero_target_rows :
    atbRows wdsNoTarget = [] ∧
    atb_coords_baku wdsNoTarget = [(40.4, 49.85)] ∧
    atb_coords_regions wdsNoTarget = [(40.0, 48.0)] ∧
    calculate_opportunity_score_baku wdsNoTarget (40.4, 49.85) = 0.8 := by
  have hbox : inBakuAbsheron ((40.4 : ℚ), (49.85 : ℚ)) := by
    norm_num [inBakuAbsheron, baku_lat_min, baku_lat_max,
      baku_long_min, baku_long_max]
  have h1 : atbRows wdsNoTarget = [] := by
    simp [atbRows, wdsNoTarget, targetBank]
  have h2 : atb_coords_baku wdsNoTarget = [(40.4, 49.85)] := by
    simp [atb_coords_baku, atb_baku, df_baku, wdsNoTarget, hbox, coords,
      targetBank]
  have h3 : atb_coords_regions wdsNoTarget = [(40.0, 48.0)] := by
    simp [atb_coords_regions, atb_regions, df_regions, wdsNoTarget, hbox,
      coords]
  refine ⟨h1, h2, h3, ?_⟩
  have hcomp : comp_coords_baku wdsNoTarget = [(40.4, 49.85)] := by
    simp [comp_coords_baku, comp_baku, df_baku, wdsNoTarget, hbox, coords,
      targetBank]
  rw [calculate_opportunity_score_baku, h2, hcomp]
  have hmin : minDist2 [((40.4 : ℚ), (49.85 : ℚ))] (40.4, 49.85) = 0 := by
    rw [minDist2_singleton, dist2_self]
  rw [distNearest, hmin]
  norm_num [List.countP_cons, dist2, Real.sqrt_zero]

/-- A fetched branch record as the scrapers see it after JSON parsing (and,
for `kb_branches.py`, after `flatten_branch_data`): a Python dict, modelled
as an association list from field name to rendered value. -/
abbrev BranchRecord := List (String × String)

/-- The keys of one record (`branch.keys()`). -/
def recordKeys (b : BranchRecord) : List String := b.map Prod.fst

/-- Dict lookup: the value stored under `k`, if any. -/
def getField (b : BranchRecord) (k : String) : Option String :=
  (b.find? fun kv => kv.1 = k).map Prod.snd

/-- Lines 36–40 of `abb_branches.py` (and 81–86 of `kb_branches.py`):
`fieldnames = set(); for branch: fieldnames.update(branch.keys());
fieldnames = sorted(fieldnames)` — the alphabetically sorted union of keys
across all records. -/
def fieldnames (branches : List BranchRecord) : List String :=
  ((branches.flatMap recordKeys).dedup).mergeSort fun a b => decide (a ≤ b)

/-- Lines 29–48 of `abb_branches.py` (same shape in `kb_branches.py` lines
72–94): on an empty list report "no data" and write nothing (`none`);
otherwise produce the header row and one data row per record in input order,
where `csv.DictWriter` renders a key missing from a record as the empty
field (its default `restval` is `''`). -/
def save_to_csv (branches : List BranchRecord) :
    Option (List String × List (List String)) :=
  if branches.isEmpty then none
  else some (fieldnames branches,
    branches.map fun b => (fieldnames branches).map fun k => (getField b k).getD "")

/-- C9: `save_to_csv` writes nothing on an empty fetch; on a non-empty fetch
it emits one header line — the alphabetically sorted, duplicate-free union
of the keys of all (flattened) records — followed by one row per record in
input order, each row listing the record's value per header key with missing
keys rendered as empty fields. -/
theorem save_to_csv_contract (branches : List BranchRecord) :
    (branches = [] → save_to_csv branches = none) ∧
    (branches ≠ [] →
      save_to_csv branches = some (fieldnames branches,
        branches.map fun b =>
          (fieldnames branches).map fun k => (getField b k).getD "") ∧
      (fieldnames branches).Sorted (· ≤ ·) ∧
      (fieldnames branches).Nodup ∧
      (∀ k, k ∈ fieldnames branches ↔ ∃ b ∈ branches, k ∈ recordKeys b)) := by
  constructor
  · intro h
    simp [save_to_csv, h]
  · intro h
    refine ⟨?_, ?_, ?_, ?_⟩
    · rw [save_to_csv, if_neg (by simpa using h)]
    · have hs := @List.sorted_mergeSort String
        (fun a b => decide (a ≤ b))
        (fun a b c hab hbc => by
          simp only [decide_eq_true_eq] at hab hbc ⊢
          exact le_trans hab hbc)
        (fun a b => by
          simp only [decide_eq_true_eq, Bool.or_eq_true]
          exact le_total a b)
        ((branches.flatMap recordKeys).dedup)
      simpa only [List.Sorted, decide_eq_true_eq] using hs
    · exact (List.mergeSort_perm _ _).nodup_iff.mpr
        (branches.flatMap recordKeys).nodup_dedup
    · intro k
      rw [fieldnames, (List.mergeSort_perm _ _).mem_iff, List.mem_dedup,
        List.mem_flatMap]

/-- Two concrete records with different key sets, for the C9 witness. -/
def wbranches : List BranchRecord := [[("b", "1"), ("a", "x")], [("a", "y")]]

/-- C9 witness: the contract instantiated on the empty fetch and on a
concrete two-record fetch with a key missing from the second record. -/
theorem save_to_csv_contract_witness :
    save_to_csv ([] : List BranchRecord) = none ∧
    (save_to_csv wbranches = some (fieldnames wbranches,
        wbranches.map fun b =>
          (fieldnames wbranches).map fun k => (getField b k).getD "") ∧
      (fieldnames wbranches).Sorted (· ≤ ·) ∧
      (fieldnames wbranches).Nodup ∧
      (∀ k, k ∈ fieldnames wbranches ↔ ∃ b ∈ wbranches, k ∈ recordKeys b)) :=
  ⟨(save_to_csv_contract []).1 rfl,
   (save_to_csv_contract wbranches).2 (by simp [wbranches])⟩

end BranchLocations
